import Mathlib

/-!
Verification development for the StealthSwap repository: a BTC ↔ Starknet atomic-swap
system consisting of a Cairo contract pair (`StealthSwap`, `Verifier`), a TypeScript
backend (Bitcoin HTLC service, Blockstream ledger access, swap routes) and an in-memory
HTLC store.

Modelling conventions:
- `felt252` values, contract addresses, u64 timestamps, uuid/string identifiers and hex
  secrets are modelled as `Nat`; the contract only stores and compares these values.
- The external Poseidon hash (Cairo `poseidon_hash_span` / starknet.js
  `computePoseidonHashOnElements`), the two-argument Poseidon pair hash
  (`computePoseidonHash`) and SHA-256 are not part of the repository; they enter the
  embedding as explicit function parameters (`H : List Nat → Nat`, `H2 : Nat → Nat → Nat`,
  `sha : Nat → Nat`).
- Cairo `assert` reverts the whole call, so each entry point is a function returning
  `Except ContractErr ContractState`; a reverted call leaves the state unchanged
  (see `applyOp`).  Error constructors carry the Cairo assert message in their doc string.
- Remote HTTP results (Blockstream UTXO and block-height queries) are passed in as
  `Option` values: `none` models a rejected/failed request.
-/

/-- Swap status enum from `types.cairo` (`SwapStatus`); `Pending` is the storage default. -/
inductive SwapStatus where
  | Pending
  | Locked
  | Completed
  | Refunded
  | Expired
  deriving DecidableEq, Repr

/-- Swap record from `types.cairo` (`Swap`). -/
structure Swap where
  id : Nat
  initiator : Nat
  participant : Nat
  amount_hash : Nat
  hashlock : Nat
  timelock : Nat
  status : SwapStatus
  created_at : Nat
  deriving DecidableEq, Repr

/-- Zeroed swap returned by a Cairo storage `Map` read of an absent key
(`SwapStatus` defaults to `Pending`). -/
def defaultSwap : Swap :=
  { id := 0, initiator := 0, participant := 0, amount_hash := 0, hashlock := 0,
    timelock := 0, status := SwapStatus.Pending, created_at := 0 }

/-- Proof triple from `types.cairo` (`SwapProof`). -/
structure SwapProof where
  amount_commitment : Nat
  nullifier : Nat
  proof_hash : Nat
  deriving DecidableEq, Repr

/-- Storage of the `StealthSwap` contract: swap map, swap counter, per-user swap index
and the global used-nullifier set. -/
structure ContractState where
  swaps : Nat → Swap
  swap_count : Nat
  user_swap_count : Nat → Nat
  user_swaps : Nat × Nat → Nat
  used_nullifiers : Nat → Bool

/-- Revert reasons of the `StealthSwap` entry points; each constructor corresponds to a
Cairo assert message. -/
inductive ContractErr where
  /-- Cairo assert message: Timelock must be in future. -/
  | timelockNotFuture
  /-- Cairo assert message: Swap not pending. -/
  | notPending
  /-- Cairo assert message: Swap expired. -/
  | expired
  /-- Cairo assert message: Not authorized. -/
  | notAuthorized
  /-- Cairo assert message: Nullifier already used. -/
  | nullifierUsed
  /-- Cairo assert message: Invalid commitment. -/
  | invalidCommitment
  /-- Cairo assert message: Swap not locked. -/
  | notLocked
  /-- Cairo assert message: Invalid preimage. -/
  | invalidPreimage
  /-- Cairo assert message: Cannot refund. -/
  | cannotRefund
  /-- Cairo assert message: Timelock not expired. -/
  | timelockNotExpired
  /-- Cairo assert message: Only initiator can refund. -/
  | onlyInitiator
  /-- Panic of checked u64 addition on overflow (Cairo integer semantics). -/
  | u64Overflow
  deriving DecidableEq, Repr

/-- Returns true on the `Except.ok` constructor; used to state call success. -/
def isOkE {ε α : Type} : Except ε α → Bool
  | Except.ok _ => true
  | Except.error _ => false

/-- Embedding of `StealthSwap::initiate_swap`.  `H` is the external Poseidon span hash;
`caller`/`timestamp` model `get_caller_address`/`get_block_timestamp`.  Returns the fresh
swap id together with the updated storage. -/
def initiate_swap (H : List Nat → Nat) (caller timestamp : Nat) (s : ContractState)
    (participant amount_hash hashlock timelock : Nat) :
    Except ContractErr (Nat × ContractState) :=
  if ¬ timelock > timestamp then Except.error ContractErr.timelockNotFuture
  else
    let swap_count := s.swap_count
    let swap_id := H [caller, participant, amount_hash, swap_count, timestamp]
    let swap : Swap :=
      { id := swap_id, initiator := caller, participant := participant,
        amount_hash := amount_hash, hashlock := hashlock, timelock := timelock,
        status := SwapStatus.Pending, created_at := timestamp }
    if swap_count + 1 ≥ 2 ^ 64 then Except.error ContractErr.u64Overflow
    else
      let s1 := { s with
        swaps := fun i => if i = swap_id then swap else s.swaps i,
        swap_count := swap_count + 1 }
      let user_count := s1.user_swap_count caller
      if user_count + 1 ≥ 2 ^ 64 then Except.error ContractErr.u64Overflow
      else
        let s2 := { s1 with
          user_swaps := fun k => if k = (caller, user_count) then swap_id else s1.user_swaps k,
          user_swap_count := fun u => if u = caller then user_count + 1 else s1.user_swap_count u }
        let participant_count := s2.user_swap_count participant
        if participant_count + 1 ≥ 2 ^ 64 then Except.error ContractErr.u64Overflow
        else
          let s3 := { s2 with
            user_swaps := fun k =>
              if k = (participant, participant_count) then swap_id else s2.user_swaps k,
            user_swap_count := fun u =>
              if u = participant then participant_count + 1 else s2.user_swap_count u }
          Except.ok (swap_id, s3)

/-- Embedding of `StealthSwap::lock_swap`: validates pending status, expiry, caller
authorization, nullifier freshness and commitment equality (in the source's assert
order), then records the nullifier and sets the status to `Locked` in one update. -/
def lock_swap (caller timestamp : Nat) (s : ContractState) (swap_id : Nat)
    (proof : SwapProof) : Except ContractErr ContractState :=
  let swap := s.swaps swap_id
  if swap.status ≠ SwapStatus.Pending then Except.error ContractErr.notPending
  else if ¬ timestamp ≤ swap.timelock then Except.error ContractErr.expired
  else if ¬ (caller = swap.initiator ∨ caller = swap.participant) then
    Except.error ContractErr.notAuthorized
  else if s.used_nullifiers proof.nullifier then Except.error ContractErr.nullifierUsed
  else if proof.amount_commitment ≠ swap.amount_hash then
    Except.error ContractErr.invalidCommitment
  else
    Except.ok { s with
      used_nullifiers := fun n => if n = proof.nullifier then true else s.used_nullifiers n,
      swaps := fun i =>
        if i = swap_id then { swap with status := SwapStatus.Locked } else s.swaps i }

/-- Embedding of `StealthSwap::complete_swap`: requires `Locked`, not expired, and the
Poseidon hash of the preimage to equal the stored hashlock; then sets `Completed`. -/
def complete_swap (H : List Nat → Nat) (caller timestamp : Nat) (s : ContractState)
    (swap_id preimage : Nat) : Except ContractErr ContractState :=
  let swap := s.swaps swap_id
  if swap.status ≠ SwapStatus.Locked then Except.error ContractErr.notLocked
  else if ¬ timestamp ≤ swap.timelock then Except.error ContractErr.expired
  else if H [preimage] ≠ swap.hashlock then Except.error ContractErr.invalidPreimage
  else
    Except.ok { s with
      swaps := fun i =>
        if i = swap_id then { swap with status := SwapStatus.Completed } else s.swaps i }

/-- Embedding of `StealthSwap::refund_swap`: requires `Pending` or `Locked`, an expired
timelock and the initiator as caller; then sets `Refunded`. -/
def refund_swap (caller timestamp : Nat) (s : ContractState) (swap_id : Nat) :
    Except ContractErr ContractState :=
  let swap := s.swaps swap_id
  if ¬ (swap.status = SwapStatus.Pending ∨ swap.status = SwapStatus.Locked) then
    Except.error ContractErr.cannotRefund
  else if ¬ timestamp > swap.timelock then Except.error ContractErr.timelockNotExpired
  else if caller ≠ swap.initiator then Except.error ContractErr.onlyInitiator
  else
    Except.ok { s with
      swaps := fun i =>
        if i = swap_id then { swap with status := SwapStatus.Refunded } else s.swaps i }

/-- Embedding of `Verifier::verify_swap_proof`: commitment equality, nullifier freshness
and a non-zero proof hash, checked in the source's order. -/
def verify_swap_proof (used_nullifiers : Nat → Bool) (proof : SwapProof)
    (expected_commitment : Nat) : Bool :=
  if proof.amount_commitment ≠ expected_commitment then false
  else if used_nullifiers proof.nullifier then false
  else if proof.proof_hash = 0 then false
  else true

/-- Embedding of `Verifier::verify_amount_commitment`: Poseidon hash of the u256 amount
split into its 128-bit low and high limbs, followed by the blinding factor. -/
def verify_amount_commitment (H : List Nat → Nat) (amount blinding_factor : Nat) : Nat :=
  H [amount % 2 ^ 128, amount / 2 ^ 128, blinding_factor]

/-- Embedding of `Verifier::compute_hashlock`: Poseidon span hash of the preimage. -/
def compute_hashlock (H : List Nat → Nat) (preimage : Nat) : Nat :=
  H [preimage]

/-- Embedding of `Verifier::verify_hashlock`. -/
def verify_hashlock (H : List Nat → Nat) (preimage hashlock : Nat) : Bool :=
  H [preimage] = hashlock

/-- One invocation of a `StealthSwap` entry point, with its environment
(caller address and block timestamp). -/
inductive ContractOp where
  | initiate (caller timestamp participant amount_hash hashlock timelock : Nat)
  | lock (caller timestamp : Nat) (swap_id : Nat) (proof : SwapProof)
  | complete (caller timestamp swap_id preimage : Nat)
  | refund (caller timestamp swap_id : Nat)

/-- Dispatch one entry-point invocation. -/
def contractStep (H : List Nat → Nat) (s : ContractState) : ContractOp → Except ContractErr ContractState
  | ContractOp.initiate c t participant ah hl tl =>
    match initiate_swap H c t s participant ah hl tl with
    | Except.ok r => Except.ok r.2
    | Except.error e => Except.error e
  | ContractOp.lock c t id p => lock_swap c t s id p
  | ContractOp.complete c t id pre => complete_swap H c t s id pre
  | ContractOp.refund c t id => refund_swap c t s id

/-- Transaction semantics of a call: a reverted (erroring) call leaves storage unchanged. -/
def applyOp (H : List Nat → Nat) (s : ContractState) (op : ContractOp) : ContractState :=
  match contractStep H s op with
  | Except.ok s' => s'
  | Except.error _ => s

/-- Run a sequence of entry-point invocations. -/
def execOps (H : List Nat → Nat) (s : ContractState) (ops : List ContractOp) : ContractState :=
  ops.foldl (applyOp H) s

/-- UTXO entry from the Blockstream API (`bitcoin.service.ts`). -/
structure UTXO where
  txid : Nat
  vout : Nat
  value : Nat
  confirmed : Bool
  deriving DecidableEq, Repr

/-- Failure modes of `createHTLCFundingTx`: the thrown messages begin with
No UTXOs found (empty UTXO set) and Insufficient funds (sum of all UTXOs below the
required total); both belong to the insufficient-resources error class. -/
inductive FundError where
  | noUtxos
  | insufficientFunds (haveSats needSats : Nat)
  deriving DecidableEq, Repr

/-- One output of the funding transaction: either the P2WSH output locking value to the
HTLC script address, or the P2WPKH change output back to the sender. -/
inductive TxOutput where
  | htlc (value : Nat)
  | change (address : Nat) (value : Nat)
  deriving DecidableEq, Repr

/-- The constructed funding transaction: selected inputs and emitted outputs. -/
structure FundingTx where
  inputs : List UTXO
  outputs : List TxOutput
  deriving DecidableEq, Repr

/-- Sum of the values of a UTXO list. -/
def sumVals : List UTXO → Nat
  | [] => 0
  | u :: rest => u.value + sumVals rest

/-- The UTXO-selection loop of `createHTLCFundingTx`: walk the list in order, pushing
each UTXO and accumulating its value, stopping as soon as the running sum reaches
`totalNeeded`.  `acc`/`accSum` are the selected list (reversed) and running sum. -/
def selectGo (totalNeeded : Nat) : List UTXO → Nat → List UTXO → List UTXO × Nat
  | [], accSum, acc => (acc.reverse, accSum)
  | u :: rest, accSum, acc =>
    let s := accSum + u.value
    if totalNeeded ≤ s then ((u :: acc).reverse, s)
    else selectGo totalNeeded rest s (u :: acc)

/-- Embedding of `createHTLCFundingTx` (`bitcoin.service.ts`): fails on an empty UTXO
set; estimates the fee as `feeRate * 150`; greedily selects UTXOs until the running sum
covers `amountSats + fee`; fails when even the full set is insufficient; otherwise emits
the HTLC output and, when the change exceeds the 546-satoshi dust threshold, a change
output back to the sender. -/
def createHTLCFundingTx (senderAddress : Nat) (utxos : List UTXO)
    (amountSats feeRate : Nat) : Except FundError FundingTx :=
  if utxos.isEmpty then Except.error FundError.noUtxos
  else
    let fee := feeRate * 150
    let totalNeeded := amountSats + fee
    let sel := selectGo totalNeeded utxos 0 []
    if sel.2 < totalNeeded then
      Except.error (FundError.insufficientFunds sel.2 totalNeeded)
    else
      let change := sel.2 - amountSats - fee
      Except.ok
        { inputs := sel.1,
          outputs := TxOutput.htlc amountSats ::
            (if change > 546 then [TxOutput.change senderAddress change] else []) }

/-- Embedding of `getUTXOs` (`bitcoin.service.ts`): the Blockstream query result is the
`remoteResult` argument; any failure (`none`) is swallowed and replaced by the empty
list — the function never rejects. -/
def getUTXOs (remoteResult : Option (List UTXO)) : List UTXO :=
  match remoteResult with
  | some utxos => utxos
  | none => []

/-- Cache module state of `bitcoin.service.ts`: `cachedBlockHeight`,
`lastHeightFetchMs` and `lastHeightErrorMs` (all initially 0). -/
structure HeightCache where
  cachedBlockHeight : Nat
  lastHeightFetchMs : Nat
  lastHeightErrorMs : Nat
  deriving DecidableEq, Repr

/-- HEIGHT_CACHE_TTL_MS from `bitcoin.service.ts`. -/
def HEIGHT_CACHE_TTL_MS : Nat := 30000

/-- HEIGHT_ERROR_COOLDOWN_MS from `bitcoin.service.ts`. -/
def HEIGHT_ERROR_COOLDOWN_MS : Nat := 300000

/-- Result of a `getBlockHeight` call: the returned height, the updated cache state,
and whether the remote tip-height query was issued at all. -/
structure HeightResult where
  height : Nat
  cache : HeightCache
  queriedRemote : Bool
  deriving DecidableEq, Repr

/-- Embedding of `getBlockHeight` (`bitcoin.service.ts`).  `remote` is the outcome of the
Blockstream tip-height request (`none` = the request fails, e.g. rate-limited).  Inside
the error cool-down or with a fresh non-zero cache the cached height is returned without
any remote call; on a failed remote call the error is swallowed and the cached height
(0 when none exists) is returned. -/
def getBlockHeight (c : HeightCache) (now : Nat) (remote : Option Nat) : HeightResult :=
  if c.lastHeightErrorMs ≠ 0 ∧ now - c.lastHeightErrorMs < HEIGHT_ERROR_COOLDOWN_MS then
    { height := c.cachedBlockHeight, cache := c, queriedRemote := false }
  else if 0 < c.cachedBlockHeight ∧ now - c.lastHeightFetchMs < HEIGHT_CACHE_TTL_MS then
    { height := c.cachedBlockHeight, cache := c, queriedRemote := false }
  else
    match remote with
    | some h =>
      { height := h,
        cache := { c with cachedBlockHeight := h, lastHeightFetchMs := now },
        queriedRemote := true }
    | none =>
      { height := c.cachedBlockHeight,
        cache := { c with lastHeightErrorMs := now },
        queriedRemote := true }

/-- HTLC status union from the backend `types.ts`. -/
inductive HTLCStatus where
  | pending
  | locked
  | completed
  | refunded
  | expired
  deriving DecidableEq, Repr

/-- Mock-BTC HTLC record from the backend `types.ts` / `htlc.service.ts`. -/
structure HTLC where
  id : Nat
  sender : Nat
  receiver : Nat
  amount : Nat
  hashlock : Nat
  timelock : Nat
  status : HTLCStatus
  createdAt : Nat
  txid : Nat
  deriving DecidableEq, Repr

/-- The in-memory `htlcs` map of `htlc.service.ts`. -/
def HtlcStore := Nat → Option HTLC

/-- Embedding of `computeHashlock` (`htlc.service.ts`): the starknet.js two-argument
Poseidon pair hash of the preimage and 0 (`computePoseidonHash(preimage, '0')`);
`H2` is that external pair hash. -/
def computeHashlockSvc (H2 : Nat → Nat → Nat) (preimage : Nat) : Nat :=
  H2 preimage 0

/-- Embedding of `completeHTLC` (`htlc.service.ts`): requires the HTLC to exist, to be in
status `locked`, and the preimage to hash to the stored hashlock; then marks it
`completed` and writes it back. -/
def completeHTLC (H2 : Nat → Nat → Nat) (store : HtlcStore) (htlcId preimage : Nat) :
    Option HTLC × HtlcStore :=
  match store htlcId with
  | none => (none, store)
  | some htlc =>
    if htlc.status ≠ HTLCStatus.locked then (none, store)
    else if computeHashlockSvc H2 preimage ≠ htlc.hashlock then (none, store)
    else
      let h := { htlc with status := HTLCStatus.completed }
      (some h, fun i => if i = htlcId then some h else store i)

/-- Embedding of `refundHTLC` (`htlc.service.ts`): requires only that the HTLC exists and
that `now` is strictly past its timelock — the current status is not checked — then marks
it `refunded` and writes it back. -/
def refundHTLC (now : Nat) (store : HtlcStore) (htlcId : Nat) :
    Option HTLC × HtlcStore :=
  match store htlcId with
  | none => (none, store)
  | some htlc =>
    if now ≤ htlc.timelock then (none, store)
    else
      let h := { htlc with status := HTLCStatus.refunded }
      (some h, fun i => if i = htlcId then some h else store i)

/-- Proof package from the backend `types.ts` (`AmountProof`). -/
structure AmountProof where
  commitment : Nat
  nullifier : Nat
  proofHash : Nat
  blindingFactor : Nat
  deriving DecidableEq, Repr

/-- Embedding of `generateAmountProof` (`htlc.service.ts`).  The random blinding factor
and nullifier (`generatePreimage()` calls) are passed in as arguments.  The commitment is
the Poseidon hash of the amount split into a 128-bit low limb (`amount & (2^128 - 1)`)
and a high limb (`amount >> 128`), followed by the blinding factor. -/
def generateAmountProof (H : List Nat → Nat) (amount blindingFactor nullifier : Nat) :
    AmountProof :=
  let amountLow := amount &&& (2 ^ 128 - 1)
  let amountHigh := amount >>> 128
  let commitment := H [amountLow, amountHigh, blindingFactor]
  let proofHash := H [commitment, nullifier, blindingFactor]
  { commitment := commitment, nullifier := nullifier, proofHash := proofHash,
    blindingFactor := blindingFactor }

/-- Amount commitment computed by the `POST /api/swap/initiate` route
(`routes/swap.ts`): `computePoseidonHashOnElements([amountSats.toString(),
blindingFactor])` — a two-element span with no limb split. -/
def routeAmountCommitment (H : List Nat → Nat) (amountSats blindingFactor : Nat) : Nat :=
  H [amountSats, blindingFactor]

/-- Embedding of `generateHashlock` (`bitcoin.service.ts`): a 32-byte random preimage
(the argument `wide`, a value below 2^256 read big-endian from the byte buffer) and its
SHA-256 hashlock; `sha` is the external SHA-256. -/
def generateHashlock (sha : Nat → Nat) (wide : Nat) : Nat × Nat :=
  (wide, sha wide)

/-- Number of digits of the hex representation produced by `toString(16)` (at least one
digit, no leading zeros). -/
def hexLen (n : Nat) : Nat :=
  if n = 0 then 1 else Nat.log 16 n + 1

/-- Embedding of `truncateToFelt252` (`routes/swap.ts`): keep the first 63 hex digits of
the hash when its hex representation is longer, i.e. drop the trailing
`hexLen n - 63` digits. -/
def truncateToFelt252 (n : Nat) : Nat :=
  if hexLen n > 63 then n / 16 ^ (hexLen n - 63) else n

/-- The Starknet preimage derived by the `POST /api/swap/initiate` route: the first 62
hex characters (31 most significant bytes) of the 64-character wide-secret hex string. -/
def starknetPreimageOf (wide : Nat) : Nat :=
  wide / 2 ^ 8

/-- The Starknet hashlock returned by the `POST /api/swap/initiate` route: the Poseidon
span hash of the narrow preimage, defensively truncated to 63 hex digits (252 bits). -/
def routeStarknetHashlock (H : List Nat → Nat) (wide : Nat) : Nat :=
  truncateToFelt252 (H [starknetPreimageOf wide])

/-- Concrete stand-in for the external hash functions in closed witness statements.  The
real Poseidon span hash is collision resistant; the only property the witnesses and
counterexamples rely on is that it distinguishes the concrete input spans appearing in
them, which this encoding does by direct computation. -/
def hashModel : List Nat → Nat :=
  fun l => l.foldl (fun a x => a * 2 ^ 64 + x + 1) 0

/-- Demo swap used in concrete instances: pending, not expired, initiator 10. -/
def lockDemoSwap : Swap :=
  { id := 1, initiator := 10, participant := 20, amount_hash := 77, hashlock := 0,
    timelock := 100, status := SwapStatus.Pending, created_at := 0 }

/-- Demo contract state holding only `lockDemoSwap` under id 1. -/
def lockDemoState : ContractState :=
  { swaps := fun i => if i = 1 then lockDemoSwap else defaultSwap,
    swap_count := 1,
    user_swap_count := fun _ => 0,
    user_swaps := fun _ => 0,
    used_nullifiers := fun _ => false }

/-- A proof whose commitment matches `lockDemoSwap` but whose proof hash is zero. -/
def zeroProofHashProof : SwapProof :=
  { amount_commitment := 77, nullifier := 5, proof_hash := 0 }

/-- A well-formed proof for `lockDemoSwap` (nonzero proof hash). -/
def lockDemoProof1 : SwapProof :=
  { amount_commitment := 77, nullifier := 5, proof_hash := 9 }

/-- A second proof reusing the nullifier of `lockDemoProof1` on another swap id. -/
def lockDemoProof2 : SwapProof :=
  { amount_commitment := 0, nullifier := 5, proof_hash := 1 }

/-- State after the successful demo lock of swap 1. -/
def lockDemoLockedState : ContractState :=
  applyOp hashModel lockDemoState (ContractOp.lock 10 50 1 lockDemoProof1)

/-- Pending demo swap for the frame property. -/
def frameSwap1 : Swap :=
  { id := 1, initiator := 10, participant := 20, amount_hash := 77, hashlock := 0,
    timelock := 100, status := SwapStatus.Pending, created_at := 0 }

/-- Locked demo swap whose hashlock is the model hash of preimage 3. -/
def frameSwap2 : Swap :=
  { id := 2, initiator := 11, participant := 21, amount_hash := 0,
    hashlock := hashModel [3], timelock := 100, status := SwapStatus.Locked,
    created_at := 0 }

/-- Locked demo swap whose timelock has already expired. -/
def frameSwap3 : Swap :=
  { id := 3, initiator := 12, participant := 22, amount_hash := 0, hashlock := 0,
    timelock := 10, status := SwapStatus.Locked, created_at := 0 }

/-- Demo contract state holding the three frame-property swaps. -/
def frameDemoState : ContractState :=
  { swaps := fun i =>
      if i = 1 then frameSwap1
      else if i = 2 then frameSwap2
      else if i = 3 then frameSwap3
      else defaultSwap,
    swap_count := 3,
    user_swap_count := fun _ => 0,
    user_swaps := fun _ => 0,
    used_nullifiers := fun _ => false }

/-- State after locking demo swap 1. -/
def frameU : ContractState :=
  applyOp hashModel frameDemoState (ContractOp.lock 10 50 1 lockDemoProof1)

/-- State after completing demo swap 2 with preimage 3. -/
def frameV : ContractState :=
  applyOp hashModel frameDemoState (ContractOp.complete 30 50 2 3)

/-- State after refunding the expired demo swap 3. -/
def frameW : ContractState :=
  applyOp hashModel frameDemoState (ContractOp.refund 12 50 3)

/-- What every successful state transition leaves untouched: all other swaps, every
field but the status of the target swap, the swap counter and the user index. -/
def swapFieldsFrame (s s2 : ContractState) (id : Nat) (st : SwapStatus) : Prop :=
  (∀ i, i ≠ id → s2.swaps i = s.swaps i) ∧
  s2.swaps id = { s.swaps id with status := st } ∧
  s2.swap_count = s.swap_count ∧
  (∀ u, s2.user_swap_count u = s.user_swap_count u) ∧
  (∀ k, s2.user_swaps k = s.user_swaps k)

/-- Demo height cache: a fresh non-zero cached height, no recorded error. -/
def heightCacheDemo : HeightCache :=
  { cachedBlockHeight := 840000, lastHeightFetchMs := 1000, lastHeightErrorMs := 0 }

/-- Demo HTLC: locked, hashlock 9 (the pair-hash model below maps preimage 9 to 9). -/
def htlcDemo : HTLC :=
  { id := 1, sender := 2, receiver := 3, amount := 1000, hashlock := 9,
    timelock := 100, status := HTLCStatus.locked, createdAt := 0, txid := 0 }

/-- Concrete stand-in for the external two-argument Poseidon pair hash in witnesses. -/
def pairHashModel : Nat → Nat → Nat :=
  fun a b => a + b

/-- Demo HTLC store holding only `htlcDemo` under id 1. -/
def htlcStoreDemo : HtlcStore :=
  fun i => if i = 1 then some htlcDemo else none

/-- The demo HTLC after completion. -/
def htlcCompleted : HTLC :=
  { htlcDemo with status := HTLCStatus.completed }

/-- The demo store after the successful completion of HTLC 1. -/
def htlcStoreDemo2 : HtlcStore :=
  (completeHTLC pairHashModel htlcStoreDemo 1 9).2

/-- A successful `lock_swap` produces exactly the one-record update of the source:
nullifier marked, target swap relocked, nothing else. -/
lemma lock_ok_state {c t id : Nat} {p : SwapProof} {s s' : ContractState}
    (h : lock_swap c t s id p = Except.ok s') :
    s' = { s with
      used_nullifiers := fun n => if n = p.nullifier then true else s.used_nullifiers n,
      swaps := fun i =>
        if i = id then { s.swaps id with status := SwapStatus.Locked } else s.swaps i } := by
  simp only [lock_swap] at h
  repeat' split at h
  all_goals first
    | exact Except.noConfusion h
    | exact (Except.ok.inj h).symm

/-- A successful `complete_swap` only rewrites the target swap's status to `Completed`. -/
lemma complete_ok_state {H : List Nat → Nat} {c t id pre : Nat} {s s' : ContractState}
    (h : complete_swap H c t s id pre = Except.ok s') :
    s' = { s with
      swaps := fun i =>
        if i = id then { s.swaps id with status := SwapStatus.Completed } else s.swaps i } := by
  simp only [complete_swap] at h
  repeat' split at h
  all_goals first
    | exact Except.noConfusion h
    | exact (Except.ok.inj h).symm

/-- A successful `refund_swap` only rewrites the target swap's status to `Refunded`. -/
lemma refund_ok_state {c t id : Nat} {s s' : ContractState}
    (h : refund_swap c t s id = Except.ok s') :
    s' = { s with
      swaps := fun i =>
        if i = id then { s.swaps id with status := SwapStatus.Refunded } else s.swaps i } := by
  simp only [refund_swap] at h
  repeat' split at h
  all_goals first
    | exact Except.noConfusion h
    | exact (Except.ok.inj h).symm

/-- A successful `initiate_swap` does not touch the used-nullifier set. -/
lemma initiate_used_eq {H : List Nat → Nat} {c t part ah hl tl : Nat} {s : ContractState}
    {r : Nat × ContractState}
    (h : initiate_swap H c t s part ah hl tl = Except.ok r) :
    r.2.used_nullifiers = s.used_nullifiers := by
  simp only [initiate_swap] at h
  repeat' split at h
  all_goals first
    | exact Except.noConfusion h
    | (have h2 := Except.ok.inj h; subst h2; rfl)

/-- Nullifier marks survive every entry-point invocation (a lock only adds a mark; the
other operations and every revert leave the set untouched). -/
lemma applyOp_used_mono (H : List Nat → Nat) (s : ContractState) (op : ContractOp)
    (n : Nat) (h : s.used_nullifiers n = true) :
    (applyOp H s op).used_nullifiers n = true := by
  unfold applyOp
  cases op with
  | initiate c t part ah hl tl =>
    simp only [contractStep]
    cases hini : initiate_swap H c t s part ah hl tl with
    | error e => simp only [hini]; exact h
    | ok r =>
      simp only [hini]
      rw [initiate_used_eq hini]
      exact h
  | lock c t id p =>
    simp only [contractStep]
    cases hop : lock_swap c t s id p with
    | error e => simp only [hop]; exact h
    | ok s' =>
      simp only [hop]
      rw [lock_ok_state hop]
      by_cases hn : n = p.nullifier <;> simp [hn, h]
  | complete c t id pre =>
    simp only [contractStep]
    cases hop : complete_swap H c t s id pre with
    | error e => simp only [hop]; exact h
    | ok s' =>
      simp only [hop]
      rw [complete_ok_state hop]
      exact h
  | refund c t id =>
    simp only [contractStep]
    cases hop : refund_swap c t s id with
    | error e => simp only [hop]; exact h
    | ok s' =>
      simp only [hop]
      rw [refund_ok_state hop]
      exact h

/-- Nullifier marks survive any sequence of entry-point invocations. -/
lemma execOps_used_mono (H : List Nat → Nat) (s : ContractState) (ops : List ContractOp)
    (n : Nat) (h : s.used_nullifiers n = true) :
    (execOps H s ops).used_nullifiers n = true := by
  induction ops generalizing s with
  | nil => exact h
  | cons op rest ih =>
    exact ih (applyOp H s op) (applyOp_used_mono H s op n h)

/-- A `lock_swap` presenting an already-marked nullifier always reverts. -/
lemma lock_rejects_used {c t id : Nat} {p : SwapProof} {s : ContractState}
    (h : s.used_nullifiers p.nullifier = true) :
    isOkE (lock_swap c t s id p) = false := by
  simp only [lock_swap]
  repeat' split
  all_goals first
    | rfl
    | exact absurd h (by assumption)

/-- C1 (amended): `lock_swap(swap_id, proof)` succeeds exactly when the swap is
`Pending`, not expired, the caller is initiator or participant, the proof's nullifier is
unused and its `amount_commitment` equals the stored `amount_hash` — the
`proof_hash ≠ 0` conjunct of the Commitment Engine's `verify` predicate is not checked
by `lock_swap`. -/
theorem lock_swap_checks (c t : Nat) (s : ContractState) (id : Nat) (p : SwapProof) :
    isOkE (lock_swap c t s id p) = true ↔
      ((s.swaps id).status = SwapStatus.Pending ∧
       t ≤ (s.swaps id).timelock ∧
       (c = (s.swaps id).initiator ∨ c = (s.swaps id).participant) ∧
       s.used_nullifiers p.nullifier = false ∧
       p.amount_commitment = (s.swaps id).amount_hash) := by
  by_cases h1 : (s.swaps id).status = SwapStatus.Pending
  · by_cases h2 : t ≤ (s.swaps id).timelock
    · by_cases h3 : c = (s.swaps id).initiator ∨ c = (s.swaps id).participant
      · by_cases h4 : s.used_nullifiers p.nullifier = true
        · simp [lock_swap, isOkE, h1, h2, h3, h4]
        · by_cases h5 : p.amount_commitment = (s.swaps id).amount_hash
          · simp [lock_swap, isOkE, h1, h2, h3, h4, h5]
          · simp [lock_swap, isOkE, h1, h2, h3, h4, h5]
      · simp [lock_swap, isOkE, h1, h2, h3]
    · simp [lock_swap, isOkE, h1, h2]
  · simp [lock_swap, isOkE, h1]

/-- C1 witness: a concrete pending, unexpired swap locked by its initiator with a
matching commitment and a fresh nullifier. -/
theorem lock_swap_checks_witness :
    isOkE (lock_swap 10 50 lockDemoState 1 zeroProofHashProof) = true :=
  (lock_swap_checks 10 50 lockDemoState 1 zeroProofHashProof).mpr (by decide)

/-- C1 counterexample: a pending, unexpired swap, an authorized caller, a proof whose
commitment matches and whose nullifier is unused but whose `proof_hash` is 0 — the
Commitment Engine's `verify` predicate rejects this proof, yet `lock_swap` succeeds,
refuting the claim that such a lock attempt is rejected. -/
theorem lock_swap_zero_proof_hash_accepted :
    (lockDemoState.swaps 1).status = SwapStatus.Pending ∧
    (50 : Nat) ≤ (lockDemoState.swaps 1).timelock ∧
    (10 = (lockDemoState.swaps 1).initiator ∨ 10 = (lockDemoState.swaps 1).participant) ∧
    lockDemoState.used_nullifiers zeroProofHashProof.nullifier = false ∧
    zeroProofHashProof.amount_commitment = (lockDemoState.swaps 1).amount_hash ∧
    zeroProofHashProof.proof_hash = 0 ∧
    verify_swap_proof lockDemoState.used_nullifiers zeroProofHashProof
      (lockDemoState.swaps 1).amount_hash = false ∧
    isOkE (lock_swap 10 50 lockDemoState 1 zeroProofHashProof) = true := by
  decide

/-- C2: once a `lock_swap` accepting nullifier N has succeeded, every later `lock_swap`
presenting N fails, whatever swap id it targets and whatever entry-point invocations
happen in between: the accepted nullifier is recorded in the same state update and no
operation ever clears it. -/
theorem lock_swap_nullifier_no_replay (H : List Nat → Nat) (s0 s1 : ContractState)
    (ops : List ContractOp) (c1 t1 id1 : Nat) (p1 : SwapProof)
    (c2 t2 id2 : Nat) (p2 : SwapProof)
    (h1 : lock_swap c1 t1 s0 id1 p1 = Except.ok s1)
    (hn : p2.nullifier = p1.nullifier) :
    isOkE (lock_swap c2 t2 (execOps H s1 ops) id2 p2) = false := by
  apply lock_rejects_used
  rw [hn]
  apply execOps_used_mono
  rw [lock_ok_state h1]
  simp

/-- C2 witness: after a concrete successful lock of swap 1 with nullifier 5 and an
intervening (failing) refund call, a lock of swap 2 presenting nullifier 5 fails. -/
theorem lock_swap_nullifier_no_replay_witness :
    isOkE (lock_swap 20 60
      (execOps hashModel lockDemoLockedState [ContractOp.refund 99 999 1])
      2 lockDemoProof2) = false :=
  lock_swap_nullifier_no_replay hashModel lockDemoState lockDemoLockedState
    [ContractOp.refund 99 999 1] 10 50 1 lockDemoProof1 20 60 2 lockDemoProof2
    rfl rfl

/-- C4: for a `Locked`, unexpired swap, `complete_swap` succeeds and sets `Completed`
exactly when the field hash of the preimage equals the stored hashlock; a wrong preimage
fails with the invalid-preimage revert and (calls being transactional) leaves the state,
hence the `Locked` status, unchanged; a swap that is not `Locked` fails with the
not-locked revert, and a `Locked` swap past its timelock fails with the expired
revert. -/
theorem complete_swap_spec (H : List Nat → Nat) (c t : Nat) (s : ContractState)
    (id pre : Nat) :
    ((s.swaps id).status = SwapStatus.Locked → t ≤ (s.swaps id).timelock →
       H [pre] = (s.swaps id).hashlock →
       complete_swap H c t s id pre = Except.ok { s with
         swaps := fun i =>
           if i = id then { s.swaps id with status := SwapStatus.Completed }
           else s.swaps i }) ∧
    ((s.swaps id).status = SwapStatus.Locked → t ≤ (s.swaps id).timelock →
       H [pre] ≠ (s.swaps id).hashlock →
       complete_swap H c t s id pre = Except.error ContractErr.invalidPreimage ∧
       applyOp H s (ContractOp.complete c t id pre) = s) ∧
    ((s.swaps id).status ≠ SwapStatus.Locked →
       complete_swap H c t s id pre = Except.error ContractErr.notLocked) ∧
    ((s.swaps id).status = SwapStatus.Locked → ¬ t ≤ (s.swaps id).timelock →
       complete_swap H c t s id pre = Except.error ContractErr.expired) := by
  refine ⟨?_, ?_, ?_, ?_⟩
  · intro h1 h2 h3
    simp [complete_swap, h1, h2, h3]
  · intro h1 h2 h3
    constructor
    · simp [complete_swap, h1, h2, h3]
    · have he : complete_swap H c t s id pre = Except.error ContractErr.invalidPreimage := by
        simp [complete_swap, h1, h2, h3]
      simp [applyOp, contractStep, he]
  · intro h1
    simp [complete_swap, h1]
  · intro h1 h2
    simp [complete_swap, h1, h2]

/-- C4 witness: completing the concrete locked demo swap 2 with the correct preimage 3
succeeds; a swap that is not locked is rejected with the not-locked revert. -/
theorem complete_swap_spec_witness :
    complete_swap hashModel 30 50 frameDemoState 2 3 = Except.ok { frameDemoState with
      swaps := fun i =>
        if i = 2 then { frameDemoState.swaps 2 with status := SwapStatus.Completed }
        else frameDemoState.swaps i } ∧
    complete_swap hashModel 30 50 frameDemoState 1 3 =
      Except.error ContractErr.notLocked :=
  ⟨(complete_swap_spec hashModel 30 50 frameDemoState 2 3).1 rfl (by decide) rfl,
   (complete_swap_spec hashModel 30 50 frameDemoState 1 3).2.2.1 (by decide)⟩

/-- C8: each of the three state transitions, whenever it succeeds — independently of the
other operations, in any state and with any parameters — changes only the status field of
the target swap; `lock_swap` additionally marks exactly the presented nullifier; every
other stored swap, every other swap field, the swap counter and the user index are
unchanged (`complete_swap` and `refund_swap` do not touch the nullifier set at all). -/
theorem swap_transitions_frame :
    (∀ (s u : ContractState) (c t id : Nat) (p : SwapProof),
       lock_swap c t s id p = Except.ok u →
       swapFieldsFrame s u id SwapStatus.Locked ∧
       u.used_nullifiers p.nullifier = true ∧
       (∀ n, n ≠ p.nullifier → u.used_nullifiers n = s.used_nullifiers n)) ∧
    (∀ (H : List Nat → Nat) (s v : ContractState) (c t id pre : Nat),
       complete_swap H c t s id pre = Except.ok v →
       swapFieldsFrame s v id SwapStatus.Completed ∧
       (∀ n, v.used_nullifiers n = s.used_nullifiers n)) ∧
    (∀ (s w : ContractState) (c t id : Nat),
       refund_swap c t s id = Except.ok w →
       swapFieldsFrame s w id SwapStatus.Refunded ∧
       (∀ n, w.used_nullifiers n = s.used_nullifiers n)) := by
  refine ⟨?_, ?_, ?_⟩
  · intro s u c t id p hL
    rw [lock_ok_state hL]
    refine ⟨⟨?_, ?_, rfl, fun _ => rfl, fun _ => rfl⟩, ?_, ?_⟩
    · intro i hi; simp [hi]
    · simp
    · simp
    · intro n hn; simp [hn]
  · intro H s v c t id pre hC
    rw [complete_ok_state hC]
    refine ⟨⟨?_, ?_, rfl, fun _ => rfl, fun _ => rfl⟩, fun _ => rfl⟩
    · intro i hi; simp [hi]
    · simp
  · intro s w c t id hR
    rw [refund_ok_state hR]
    refine ⟨⟨?_, ?_, rfl, fun _ => rfl, fun _ => rfl⟩, fun _ => rfl⟩
    · intro i hi; simp [hi]
    · simp

/-- C8 witness: the three frame conclusions instantiated independently — the lock on the
demo state whose only swap is `Pending` (so no completion could succeed there), and the
completion and refund on the three-swap demo state. -/
theorem swap_transitions_frame_witness :
    (swapFieldsFrame lockDemoState lockDemoLockedState 1 SwapStatus.Locked ∧
     lockDemoLockedState.used_nullifiers lockDemoProof1.nullifier = true ∧
     (∀ n, n ≠ lockDemoProof1.nullifier →
        lockDemoLockedState.used_nullifiers n = lockDemoState.used_nullifiers n)) ∧
    (swapFieldsFrame frameDemoState frameV 2 SwapStatus.Completed ∧
     (∀ n, frameV.used_nullifiers n = frameDemoState.used_nullifiers n)) ∧
    (swapFieldsFrame frameDemoState frameW 3 SwapStatus.Refunded ∧
     (∀ n, frameW.used_nullifiers n = frameDemoState.used_nullifiers n)) :=
  ⟨swap_transitions_frame.1 lockDemoState lockDemoLockedState 10 50 1 lockDemoProof1 rfl,
   swap_transitions_frame.2.1 hashModel frameDemoState frameV 30 50 2 3 rfl,
   swap_transitions_frame.2.2 frameDemoState frameW 12 50 3 rfl⟩

/-- Values below the field bit width (252 bits = 63 hex digits) pass the route's
defensive truncation unchanged. -/
lemma truncateToFelt252_id_of_lt {n : Nat} (h : n < 2 ^ 252) :
    truncateToFelt252 n = n := by
  have hlen : ¬ hexLen n > 63 := by
    unfold hexLen
    by_cases h0 : n = 0
    · simp [h0]
    · simp only [h0, if_neg, ite_false]
      have h16 : n < 16 ^ 63 := by
        have h1663 : (16 : Nat) ^ 63 = 2 ^ 252 := by norm_num
        rw [h1663]
        exact h
      have := Nat.log_lt_of_lt_pow h0 h16
      omega
  simp [truncateToFelt252, hlen]

/-- C3: the Commitment Engine round-trip holds for the HTLC service's
`generateAmountProof` — its commitment is exactly `verify_amount_commitment` for every
amount and blinding factor — but fails for the commitment the swap-initiation route
actually sends to Starknet: the route hashes the two-element span (amount, blinding)
without the limb split, which differs from the contract's three-element span already at
amount 5, blinding factor 7 (evaluated under the concrete hash model, which computes the
two spans to different values exactly as the collision-resistant Poseidon hash does). -/
theorem amount_commitment_roundtrip_route_mismatch :
    (∀ (H : List Nat → Nat) (amount blindingFactor nullifier : Nat),
       (generateAmountProof H amount blindingFactor nullifier).commitment =
         verify_amount_commitment H amount blindingFactor) ∧
    routeAmountCommitment hashModel 5 7 ≠ verify_amount_commitment hashModel 5 7 := by
  constructor
  · intro H amount bf nf
    simp only [generateAmountProof, verify_amount_commitment]
    rw [Nat.and_pow_two_sub_one_eq_mod, Nat.shiftRight_eq_div_pow]
  · decide

/-- C5: the coordinator's hashlock derivation. The Bitcoin-side hashlock is SHA-256 of
the 32-byte wide secret; the contract-side secret is the 31-byte (248-bit, hence ≤
252-bit) truncation of the wide secret; the contract-side hashlock is the field hash of
that narrow secret, on which the route's defensive 252-bit truncation is the identity
whenever the hash output fits the field width; and the narrow secret completes any
locked, unexpired swap whose stored hashlock is the one returned at initiation. -/
theorem coordinator_hashlock_roundtrip (H : List Nat → Nat) (sha : Nat → Nat)
    (wide : Nat) (s : ContractState) (c t id : Nat)
    (hw : wide < 2 ^ 256)
    (hh : H [starknetPreimageOf wide] < 2 ^ 252)
    (hst : (s.swaps id).status = SwapStatus.Locked)
    (htl : t ≤ (s.swaps id).timelock)
    (hhl : (s.swaps id).hashlock = routeStarknetHashlock H wide) :
    (generateHashlock sha wide).2 = sha wide ∧
    starknetPreimageOf wide < 2 ^ 248 ∧
    routeStarknetHashlock H wide = H [starknetPreimageOf wide] ∧
    isOkE (complete_swap H c t s id (starknetPreimageOf wide)) = true := by
  have htr : routeStarknetHashlock H wide = H [starknetPreimageOf wide] := by
    unfold routeStarknetHashlock
    exact truncateToFelt252_id_of_lt hh
  refine ⟨rfl, ?_, htr, ?_⟩
  · unfold starknetPreimageOf
    apply Nat.div_lt_of_lt_mul
    calc wide < 2 ^ 256 := hw
      _ = 2 ^ 8 * 2 ^ 248 := by norm_num
  · rw [htr] at hhl
    simp [complete_swap, isOkE, hst, htl, hhl]

/-- C5 witness: a concrete 256-bit wide secret, the hash model standing in for the field
hash (reduced mod 2^251 so the output fits the field width), and a locked demo swap
storing the route-derived hashlock. -/
theorem coordinator_hashlock_roundtrip_witness :
    (generateHashlock (fun n => n + 2) (2 ^ 255 + 12)).2 = (fun n => n + 2) (2 ^ 255 + 12) ∧
    starknetPreimageOf (2 ^ 255 + 12) < 2 ^ 248 ∧
    routeStarknetHashlock (fun l => hashModel l % 2 ^ 251) (2 ^ 255 + 12) =
      (fun l => hashModel l % 2 ^ 251) [starknetPreimageOf (2 ^ 255 + 12)] ∧
    isOkE (complete_swap (fun l => hashModel l % 2 ^ 251) 30 50
      { swaps := fun i =>
          if i = 7 then
            { id := 7, initiator := 11, participant := 21, amount_hash := 0,
              hashlock := routeStarknetHashlock (fun l => hashModel l % 2 ^ 251)
                (2 ^ 255 + 12),
              timelock := 100, status := SwapStatus.Locked, created_at := 0 }
          else defaultSwap,
        swap_count := 1, user_swap_count := fun _ => 0, user_swaps := fun _ => 0,
        used_nullifiers := fun _ => false }
      7 (starknetPreimageOf (2 ^ 255 + 12))) = true :=
  coordinator_hashlock_roundtrip (fun l => hashModel l % 2 ^ 251) (fun n => n + 2)
    (2 ^ 255 + 12) _ 30 50 7
    (by decide) (by decide) (by decide) (by decide) rfl

/-- C7: `getBlockHeight` degrades instead of failing: a failed remote tip-height query
never propagates an error — the cached last-known height (0 when none was ever fetched)
is returned — and when a non-zero cached height is fresher than the cache TTL, the
cached height is returned without issuing any remote query. -/
theorem getBlockHeight_degrades (c : HeightCache) (now : Nat) :
    ((getBlockHeight c now none).height = c.cachedBlockHeight) ∧
    (0 < c.cachedBlockHeight → now - c.lastHeightFetchMs < HEIGHT_CACHE_TTL_MS →
       ∀ remote, (getBlockHeight c now remote).queriedRemote = false ∧
         (getBlockHeight c now remote).height = c.cachedBlockHeight) := by
  constructor
  · by_cases hc1 : c.lastHeightErrorMs ≠ 0 ∧
        now - c.lastHeightErrorMs < HEIGHT_ERROR_COOLDOWN_MS
    · simp [getBlockHeight, hc1]
    · by_cases hc2 : 0 < c.cachedBlockHeight ∧
          now - c.lastHeightFetchMs < HEIGHT_CACHE_TTL_MS
      · simp [getBlockHeight, hc1, hc2]
      · simp [getBlockHeight, hc1, hc2]
  · intro h1 h2 remote
    unfold getBlockHeight
    by_cases hc : c.lastHeightErrorMs ≠ 0 ∧
        now - c.lastHeightErrorMs < HEIGHT_ERROR_COOLDOWN_MS
    · simp [hc]
    · simp [hc, h1, h2]

/-- C7 witness: with a fresh cached height of 840000, the cached height is returned and
no remote query is issued, and a failed remote query also returns the cached height. -/
theorem getBlockHeight_degrades_witness :
    (getBlockHeight heightCacheDemo 2000 none).height =
      heightCacheDemo.cachedBlockHeight ∧
    (getBlockHeight heightCacheDemo 2000 (some 900000)).queriedRemote = false ∧
    (getBlockHeight heightCacheDemo 2000 (some 900000)).height =
      heightCacheDemo.cachedBlockHeight :=
  ⟨(getBlockHeight_degrades heightCacheDemo 2000).1,
   (getBlockHeight_degrades heightCacheDemo 2000).2 (by decide) (by decide) (some 900000)⟩

/-- C9: `refundHTLC` succeeds exactly when the HTLC exists and `now` is strictly past
its timelock, with no status check: in particular a successfully completed HTLC (status
`completed`) is still transitioned to `refunded` once the timelock has passed, so
completion and refund are not mutually exclusive in this store. -/
theorem refundHTLC_ignores_status (now : Nat) (store : HtlcStore) (htlcId : Nat) :
    (store htlcId = none → refundHTLC now store htlcId = (none, store)) ∧
    (∀ htlc, store htlcId = some htlc → now ≤ htlc.timelock →
       refundHTLC now store htlcId = (none, store)) ∧
    (∀ htlc, store htlcId = some htlc → ¬ now ≤ htlc.timelock →
       (refundHTLC now store htlcId).1 =
         some { htlc with status := HTLCStatus.refunded }) ∧
    (∀ (H2 : Nat → Nat → Nat) (preimage : Nat) (h : HTLC) (store2 : HtlcStore),
       completeHTLC H2 store htlcId preimage = (some h, store2) →
       ¬ now ≤ h.timelock →
       h.status = HTLCStatus.completed ∧
       (refundHTLC now store2 htlcId).1 =
         some { h with status := HTLCStatus.refunded }) := by
  refine ⟨?_, ?_, ?_, ?_⟩
  · intro h
    simp [refundHTLC, h]
  · intro htlc h hle
    simp [refundHTLC, h, hle]
  · intro htlc h hgt
    simp [refundHTLC, h, hgt]
  · intro H2 pre h store2 hcmp hexp
    cases hstore : store htlcId with
    | none => simp [completeHTLC, hstore] at hcmp
    | some htlc =>
      simp only [completeHTLC, hstore] at hcmp
      split at hcmp
      · simp at hcmp
      split at hcmp
      · simp at hcmp
      · rw [Prod.mk.injEq] at hcmp
        obtain ⟨hh, hs⟩ := hcmp
        have hh2 := Option.some.inj hh
        subst hh2
        subst hs
        refine ⟨rfl, ?_⟩
        simp [refundHTLC, hexp]

/-- C9 witness: the concrete locked demo HTLC is completed with the matching preimage,
and once the timelock has passed the completed HTLC is still refunded. -/
theorem refundHTLC_ignores_status_witness :
    htlcCompleted.status = HTLCStatus.completed ∧
    (refundHTLC 200 htlcStoreDemo2 1).1 =
      some { htlcCompleted with status := HTLCStatus.refunded } :=
  (refundHTLC_ignores_status 200 htlcStoreDemo 1).2.2.2 pairHashModel 9 htlcCompleted
    htlcStoreDemo2 rfl (by decide)

/-- C10: `getUTXOs` never rejects — a failed ledger query yields the empty list — and
therefore `createHTLCFundingTx`, run during a ledger outage, reports the no-UTXOs
insufficient-resources error instead of a ledger-unavailability error, for every address,
amount and fee rate. -/
theorem getUTXOs_conflates_ledger_failure :
    getUTXOs none = [] ∧
    ∀ (addr amountSats feeRate : Nat),
      createHTLCFundingTx addr (getUTXOs none) amountSats feeRate =
        Except.error FundError.noUtxos :=
  ⟨rfl, fun _ _ _ => rfl⟩

/-- When even the whole remaining list cannot reach the target, the selection loop
consumes everything. -/
lemma selectGo_all (needed : Nat) (l : List UTXO) (accSum : Nat) (acc : List UTXO)
    (h : accSum + sumVals l < needed) :
    selectGo needed l accSum acc = (acc.reverse ++ l, accSum + sumVals l) := by
  induction l generalizing accSum acc with
  | nil => simp [selectGo, sumVals]
  | cons u rest ih =>
    have hu : sumVals (u :: rest) = u.value + sumVals rest := rfl
    have hlt : ¬ needed ≤ accSum + u.value := by
      rw [hu] at h; omega
    simp only [selectGo, hlt, if_neg, ite_false]
    rw [ih (accSum + u.value) (u :: acc) (by rw [hu] at h; omega)]
    rw [hu]
    simp [List.reverse_cons, List.append_assoc]
    omega

/-- When the remaining list can reach the target, the selection loop stops at the first
(nonempty) prefix whose running sum reaches it. -/
lemma selectGo_found (needed : Nat) (l : List UTXO) (accSum : Nat) (acc : List UTXO)
    (h : needed ≤ accSum + sumVals l) :
    ∃ k, 0 < k ∧
      selectGo needed l accSum acc =
        (acc.reverse ++ l.take k, accSum + sumVals (l.take k)) ∧
      needed ≤ accSum + sumVals (l.take k) ∧
      ∀ j, 0 < j → j < k → accSum + sumVals (l.take j) < needed := by
  induction l generalizing accSum acc with
  | nil =>
    refine ⟨1, Nat.one_pos, ?_, ?_, ?_⟩
    · simp [selectGo, sumVals]
    · simpa [sumVals] using h
    · intro j hj hjk; omega
  | cons u rest ih =>
    have hu : sumVals (u :: rest) = u.value + sumVals rest := rfl
    by_cases hle : needed ≤ accSum + u.value
    · refine ⟨1, Nat.one_pos, ?_, ?_, ?_⟩
      · simp [selectGo, hle, sumVals, List.reverse_cons]
      · simpa [sumVals] using hle
      · intro j hj hjk; omega
    · have h2 : needed ≤ (accSum + u.value) + sumVals rest := by
        rw [hu] at h; omega
      obtain ⟨k, hk0, heq, hge, hmin⟩ := ih (accSum + u.value) (u :: acc) h2
      refine ⟨k + 1, Nat.succ_pos k, ?_, ?_, ?_⟩
      · simp only [selectGo, hle, if_neg, ite_false]
        rw [heq]
        have ht : (u :: rest).take (k + 1) = u :: rest.take k := rfl
        rw [ht]
        have hsum : sumVals (u :: rest.take k) = u.value + sumVals (rest.take k) := rfl
        rw [hsum]
        simp [List.reverse_cons, List.append_assoc]
        omega
      · have ht : (u :: rest).take (k + 1) = u :: rest.take k := rfl
        rw [ht]
        have hsum : sumVals (u :: rest.take k) = u.value + sumVals (rest.take k) := rfl
        rw [hsum]
        omega
      · intro j hj hjk
        cases j with
        | zero => omega
        | succ j2 =>
          cases j2 with
          | zero =>
            have ht : (u :: rest).take 1 = [u] := rfl
            rw [ht]
            have hsum : sumVals [u] = u.value + 0 := rfl
            rw [hsum]
            omega
          | succ j3 =>
            have ht : (u :: rest).take (j3 + 2) = u :: rest.take (j3 + 1) := rfl
            rw [ht]
            have hsum : sumVals (u :: rest.take (j3 + 1)) =
                u.value + sumVals (rest.take (j3 + 1)) := rfl
            rw [hsum]
            have := hmin (j3 + 1) (Nat.succ_pos j3) (by omega)
            omega

/-- C6: `createHTLCFundingTx` selects UTXOs greedily in list order — the chosen inputs
are the shortest nonempty prefix whose value sum reaches `amountSats + feeRate * 150` —
fails without building a transaction whenever the sum of all UTXOs stays below that
total (with the no-UTXOs error on an empty set and the insufficient-funds error
otherwise), and on success emits the HTLC output of exactly `amountSats` plus a change
output back to the sender exactly when the change exceeds the 546-satoshi dust
threshold. -/
theorem createHTLCFundingTx_spec (addr : Nat) (utxos : List UTXO)
    (amountSats feeRate : Nat) :
    (utxos = [] →
       createHTLCFundingTx addr utxos amountSats feeRate =
         Except.error FundError.noUtxos) ∧
    (utxos ≠ [] → sumVals utxos < amountSats + feeRate * 150 →
       createHTLCFundingTx addr utxos amountSats feeRate =
         Except.error (FundError.insufficientFunds (sumVals utxos)
           (amountSats + feeRate * 150))) ∧
    (∀ tx, createHTLCFundingTx addr utxos amountSats feeRate = Except.ok tx →
       (∃ k, 0 < k ∧ tx.inputs = utxos.take k ∧
          amountSats + feeRate * 150 ≤ sumVals tx.inputs ∧
          (∀ j, 0 < j → j < k →
             sumVals (utxos.take j) < amountSats + feeRate * 150)) ∧
       tx.outputs = TxOutput.htlc amountSats ::
         (if sumVals tx.inputs - amountSats - feeRate * 150 > 546 then
            [TxOutput.change addr (sumVals tx.inputs - amountSats - feeRate * 150)]
          else [])) := by
  refine ⟨?_, ?_, ?_⟩
  · intro h
    subst h
    rfl
  · intro hne hlt
    have hsel := selectGo_all (amountSats + feeRate * 150) utxos 0 [] (by omega)
    simp only [createHTLCFundingTx]
    rw [List.isEmpty_eq_false_iff_exists_mem.mpr
      (by cases utxos with
          | nil => exact absurd rfl hne
          | cons a l => exact ⟨a, List.mem_cons_self a l⟩)]
    simp only [Bool.false_eq_true, if_neg, ite_false, hsel]
    simp only [List.nil_append, Nat.zero_add]
    rw [if_pos hlt]
  · intro tx htx
    by_cases hemp : utxos = []
    · subst hemp
      exact absurd htx (by simp [createHTLCFundingTx])
    · by_cases hlt : sumVals utxos < amountSats + feeRate * 150
      · have hsel := selectGo_all (amountSats + feeRate * 150) utxos 0 [] (by omega)
        exact absurd htx (by
          simp only [createHTLCFundingTx]
          rw [List.isEmpty_eq_false_iff_exists_mem.mpr
            (by cases utxos with
                | nil => exact absurd rfl hemp
                | cons a l => exact ⟨a, List.mem_cons_self a l⟩)]
          simp only [Bool.false_eq_true, if_neg, ite_false, hsel]
          simp only [List.nil_append, Nat.zero_add]
          rw [if_pos hlt]
          simp)
      · obtain ⟨k, hk0, heq, hge, hmin⟩ :=
          selectGo_found (amountSats + feeRate * 150) utxos 0 [] (by omega)
        simp only [createHTLCFundingTx] at htx
        rw [List.isEmpty_eq_false_iff_exists_mem.mpr
          (by cases utxos with
              | nil => exact absurd rfl hemp
              | cons a l => exact ⟨a, List.mem_cons_self a l⟩)] at htx
        simp only [Bool.false_eq_true, if_neg, ite_false, heq] at htx
        simp only [List.nil_append, Nat.zero_add] at htx
        rw [if_neg (by omega)] at htx
        have htx2 := Except.ok.inj htx
        subst htx2
        constructor
        · exact ⟨k, hk0, rfl, by simpa using hge, by
            intro j hj hjk
            have := hmin j hj hjk
            omega⟩
        · rfl

/-- C6 witness: two UTXOs of 600 and 500 satoshis, an amount of 700 and fee 300: the
greedy loop takes both inputs (600 < 1000 ≤ 1100), and the change of 100 stays below the
dust threshold, so only the HTLC output is emitted. -/
theorem createHTLCFundingTx_spec_witness :
    createHTLCFundingTx 42
      [{ txid := 1, vout := 0, value := 600, confirmed := true },
       { txid := 2, vout := 1, value := 500, confirmed := true }] 700 2 =
      Except.ok
        { inputs := [{ txid := 1, vout := 0, value := 600, confirmed := true },
                     { txid := 2, vout := 1, value := 500, confirmed := true }],
          outputs := [TxOutput.htlc 700] } ∧
    (createHTLCFundingTx 42
      [{ txid := 1, vout := 0, value := 600, confirmed := true },
       { txid := 2, vout := 1, value := 500, confirmed := true }] 700 2).toOption.map
        (fun tx => tx.outputs) =
      some [TxOutput.htlc 700] ∧
    ((createHTLCFundingTx 42
      [{ txid := 1, vout := 0, value := 600, confirmed := true }] 700 2) =
      Except.error (FundError.insufficientFunds 600 1000)) := by
  refine ⟨rfl, rfl, ?_⟩
  exact (createHTLCFundingTx_spec 42
    [{ txid := 1, vout := 0, value := 600, confirmed := true }] 700 2).2.1
    (by decide) (by decide)
